import Mathlib

/-!
Verification of the core of `soar`, a userspace package manager, against its
natural-language specification.  The Rust sources are shallowly embedded:
pure logic becomes Lean functions; filesystem/network effects become explicit
operation traces or are parameterized inputs (a server response, a sequence of
read outcomes); external library primitives (BLAKE3, MessagePack) are
parameters of the functions that use them.  Bytes are `Nat`s, paths and
on-disk data are `String`s / `List Nat`.
-/

namespace Soar

/-! ## Core constants and file-type detection (src/core/constant.rs, src/core/file.rs) -/

/-- `ELF_MAGIC_BYTES` from src/core/constant.rs line 14. -/
def ELF_MAGIC_BYTES : List Nat := [0x7f, 0x45, 0x4c, 0x46]

/-- `APPIMAGE_MAGIC_BYTES` from src/core/constant.rs line 15. -/
def APPIMAGE_MAGIC_BYTES : List Nat := [0x41, 0x49, 0x02, 0x00]

/-- `FLATIMAGE_MAGIC_BYTES` from src/core/constant.rs line 16. -/
def FLATIMAGE_MAGIC_BYTES : List Nat := [0x46, 0x49, 0x01, 0x00]

/-- `FileType` from src/core/file.rs lines 5-11. -/
inductive FileType where
  | AppImage
  | FlatImage
  | ELF
  | Unknown
deriving DecidableEq, Repr

/-- `get_file_type` from src/core/file.rs lines 13-30.  The reader is
embedded as the byte content of the file; `read_exact` into a 12-byte buffer
succeeds exactly when at least 12 bytes are available, and then
`magic_bytes[8..]` / `magic_bytes[..4]` are the slices of those 12 bytes. -/
def get_file_type (bytes : List Nat) : FileType :=
  if bytes.length < 12 then FileType.Unknown
  else
    let magic_bytes := bytes.take 12
    if magic_bytes.drop 8 = APPIMAGE_MAGIC_BYTES then FileType.AppImage
    else if magic_bytes.drop 8 = FLATIMAGE_MAGIC_BYTES then FileType.FlatImage
    else if magic_bytes.take 4 = ELF_MAGIC_BYTES then FileType.ELF
    else FileType.Unknown

/-! ## Streaming digest helpers (src/core/util.rs, src/package/util.rs)

A file handle is modelled as the sequence of outcomes that successive
`read(&mut buffer)` calls produce: each call either yields a chunk of bytes
(`Ok(n)`, with `n = 0` meaning end of file) or fails (`Err`).  An unopenable
file is `none` at the `File::open` step.  The BLAKE3 hex digest of a byte
sequence is an arbitrary parameter `hash`, standing for the external
`blake3` crate. -/

/-- One outcome of a `read` call on an open file. -/
inductive ReadEvent where
  | chunk (data : List Nat)
  | ioError
deriving DecidableEq, Repr

/-- The bytes which the `while let Ok(n) = file.read(..)` loop of
`calculate_checksum` (src/core/util.rs lines 141-146) and of
`verify_checksum` (src/package/util.rs lines 32-37) feeds to the hasher:
chunks are consumed until the first read error (which exits the
`while let`) or the first empty read (`n == 0`, which `break`s). -/
def readLoop : List ReadEvent → List Nat
  | [] => []
  | ReadEvent.ioError :: _ => []
  | ReadEvent.chunk [] :: _ => []
  | ReadEvent.chunk d :: rest => d ++ readLoop rest

/-- `calculate_checksum` from src/core/util.rs lines 135-151.  `File::open`
failure is the `none` case; afterwards the read loop never propagates an
error, and `flush` on a read handle succeeds, so the function returns the
digest of whatever bytes were read. -/
def calculate_checksum (hash : List Nat → String) :
    Option (List ReadEvent) → Except String String
  | none => Except.error "io: failed to open file"
  | some events => Except.ok (hash (readLoop events))

/-- `validate_checksum` from src/core/util.rs lines 153-160: recompute the
digest and compare with the expected checksum, `Err` on mismatch. -/
def validate_checksum (hash : List Nat → String) (checksum : String)
    (file : Option (List ReadEvent)) : Except String Unit :=
  match calculate_checksum hash file with
  | Except.error e => Except.error e
  | Except.ok final_checksum =>
      if final_checksum = checksum then Except.ok ()
      else Except.error "Checksum verification failed."

/-- `verify_checksum` from src/package/util.rs lines 27-40: same read loop,
but the comparison result is returned as a boolean. -/
def verify_checksum (hash : List Nat → String)
    (file : Option (List ReadEvent)) (bsum : String) : Except String Bool :=
  match file with
  | none => Except.error "io: failed to open file"
  | some events => Except.ok (hash (readLoop events) == bsum)

/-! ## Paths (src/core/constant.rs)

`PathBuf` is embedded as a `String`; `PathBuf::join` with a relative
component appends a separator and the component.  The lazily initialized
roots are parameters (they come from the external config). -/

/-- `PathBuf::join` with a relative component. -/
def pathJoin (base component : String) : String := base ++ "/" ++ component

/-- `PACKAGES_PATH` from src/core/constant.rs line 12: `ROOT_PATH.join("packages")`. -/
def PACKAGES_PATH (root : String) : String := pathJoin root "packages"

/-- `INSTALL_TRACK_PATH` from src/core/constant.rs line 11:
`ROOT_PATH.join("installs")`. -/
def INSTALL_TRACK_PATH (root : String) : String := pathJoin root "installs"

namespace Pkg

/-! ## The package store iteration under src/package/ -/

/-- `Package` from src/package/mod.rs lines 22-43. -/
structure Package where
  pkg : String := ""
  pkg_name : String := ""
  description : String := ""
  note : String := ""
  version : String := ""
  download_url : String := ""
  size : String := ""
  bsum : String := ""
  build_date : String := ""
  src_url : String := ""
  homepage : String := ""
  build_script : String := ""
  build_log : String := ""
  category : String := ""
  provides : String := ""
  icon : String := ""
  desktop : Option String := none
  pkg_id : Option String := none
  family : Option String := none
deriving DecidableEq, Repr

/-- `Package::full_name` from src/package/mod.rs lines 88-95. -/
def Package.full_name (p : Package) (join_char : Char) : String :=
  let family_prefix :=
    match p.family with
    | some family => family ++ join_char.toString
    | none => ""
  family_prefix ++ p.pkg

/-- `Package::get_install_dir` from src/package/mod.rs lines 80-82:
`PACKAGES_PATH.join(format!("{}-{}", &checksum[..8], self.full_name('-')))`.
The byte slice `&checksum[..8]` of an ASCII hex digest is its first 8
characters (and panics when the digest is shorter; the embedding totalizes
with a take, theorems carry the length premise). -/
def Package.get_install_dir (p : Package) (root checksum : String) : String :=
  pathJoin (PACKAGES_PATH root)
    ((checksum.toList.take 8).asString ++ "-" ++ p.full_name '-')

/-- `Package::get_install_path` from src/package/mod.rs lines 84-86. -/
def Package.get_install_path (p : Package) (root checksum : String) : String :=
  pathJoin (p.get_install_dir root checksum) p.pkg_name

end Pkg

namespace Registry

/-! ## The registry iteration under src/registry/package/ -/

/-- `Collection` from src/registry/package/mod.rs lines 117-123. -/
inductive Collection where
  | Bin
  | Base
  | Pkg
deriving DecidableEq, Repr

/-- The `Display` impl for `Collection`, src/registry/package/mod.rs
lines 159-167. -/
def Collection.toDisplay : Collection → String
  | Collection.Bin => "bin"
  | Collection.Base => "base"
  | Collection.Pkg => "pkg"

/-- `Package` from src/registry/package/mod.rs lines 26-45.  In this
iteration the family sub-namespace is the field named `variant`. -/
structure Package where
  name : String := ""
  bin_name : String := ""
  description : String := ""
  note : String := ""
  version : String := ""
  download_url : String := ""
  size : String := ""
  bsum : String := ""
  build_date : String := ""
  src_url : String := ""
  web_url : String := ""
  build_script : String := ""
  build_log : String := ""
  category : String := ""
  extra_bins : String := ""
  icon : String := ""
  variant : Option String := none
deriving DecidableEq, Repr

/-- `Package::full_name` from src/registry/package/mod.rs lines 100-107. -/
def Package.full_name (p : Package) (join_char : Char) : String :=
  let variant_prefix :=
    match p.variant with
    | some variant => variant ++ join_char.toString
    | none => ""
  variant_prefix ++ p.name

/-- `Package::get_install_dir` from src/registry/package/mod.rs lines 92-94:
`PACKAGES_PATH.join(format!("{}-{}", checksum, self.full_name('-')))` —
this iteration prefixes the directory with the whole checksum. -/
def Package.get_install_dir (p : Package) (root checksum : String) : String :=
  pathJoin (PACKAGES_PATH root) (checksum ++ "-" ++ p.full_name '-')

/-- `Package::get_install_path` from src/registry/package/mod.rs lines 96-98. -/
def Package.get_install_path (p : Package) (root checksum : String) : String :=
  pathJoin (p.get_install_dir root checksum) p.bin_name

/-- `ResolvedPackage` from src/registry/package/mod.rs lines 47-52. -/
structure ResolvedPackage where
  repo_name : String := ""
  collection : Collection := Collection.Bin
  package : Package := {}
deriving DecidableEq, Repr

end Registry

/-! ## Filesystem operations

A mutation of the filesystem performed by the embedded code is recorded as
an explicit operation, so that theorems can talk about what is written
where and what a crash in the middle of a step can leave behind. -/

/-- A filesystem mutation. -/
inductive FsOp where
  | write (path : String) (data : List Nat)
  | rename (src dst : String)
  | removeFile (path : String)
  | createDir (path : String)
  | createDirAll (path : String)
  | symlink (target link : String)
deriving DecidableEq, Repr

/-- Contents the file at `path` can hold if the process crashes while the
single operation `op` is in flight, starting from content `old`.
`fs::write` truncates and then streams the new bytes, so a crash exposes
the old content (before the truncate) or any prefix of the new content;
`rename` is atomic, so only the old or the new content is visible. -/
def crashContents (path : String) (old : List Nat) : FsOp → List (List Nat)
  | FsOp.write p data => if p = path then old :: data.inits else [old]
  | FsOp.rename _ dst => if dst = path then [old] else [old]
  | _ => [old]

namespace Registry

/-! ## Install tracker (src/registry/installed.rs) -/

/-- `InstalledPackage` from src/registry/installed.rs lines 19-29.
`size` is the parsed byte count and `timestamp` the registration instant
in seconds. -/
structure InstalledPackage where
  repo_name : String := ""
  collection : String := ""
  name : String := ""
  bin_name : String := ""
  version : String := ""
  checksum : String := ""
  size : Nat := 0
  timestamp : Nat := 0
deriving DecidableEq, Repr

/-- The record-matching predicate shared by `is_installed`,
`find_package_mut` and `find_package`
(src/registry/installed.rs lines 63-85): match on repository name,
collection, and the tracker `name` against `full_name('-')`. -/
def trackerMatches (installed : InstalledPackage) (package : ResolvedPackage) : Bool :=
  installed.repo_name == package.repo_name
    && installed.collection == package.collection.toDisplay
    && installed.name == package.package.full_name '-'

/-- `InstalledPackages::is_installed` from src/registry/installed.rs
lines 63-69. -/
def is_installed (packages : List InstalledPackage)
    (package : ResolvedPackage) : Bool :=
  packages.any (fun installed => trackerMatches installed package)

/-- `InstalledPackages::find_package` from src/registry/installed.rs
lines 79-85. -/
def find_package (packages : List InstalledPackage)
    (package : ResolvedPackage) : Option InstalledPackage :=
  packages.find? (fun installed => trackerMatches installed package)

/-- `InstalledPackages::save` from src/registry/installed.rs lines 136-148:
serialize the list (the MessagePack codec is the parameter `serialize`) and
`fs::write` it directly to `<installs>/latest`.  The returned trace is the
complete list of filesystem mutations the function performs. -/
def save (serialize : List InstalledPackage → List Nat) (root : String)
    (packages : List InstalledPackage) : List FsOp :=
  [FsOp.write (pathJoin (INSTALL_TRACK_PATH root) "latest") (serialize packages)]

/-- The in-memory effect of `InstalledPackages::register_package`
(src/registry/installed.rs lines 87-113): update version and checksum in
place when a matching record exists — note the in-place branch stores the
catalog `bsum`, the append branch the `checksum` argument — else append a
new record.  `size` and `timestamp` of a new record come from
`parse_size(&package.size).unwrap_or_default()` and `Utc::now()`, passed
in as `parsedSize` and `now`. -/
def registerApply (packages : List InstalledPackage)
    (resolved_package : ResolvedPackage) (checksum : String)
    (parsedSize now : Nat) : List InstalledPackage :=
  let package := resolved_package.package
  if is_installed packages resolved_package then
    packages.map (fun installed =>
      if trackerMatches installed resolved_package then
        { installed with version := package.version, checksum := package.bsum }
      else installed)
  else
    packages ++ [{ repo_name := resolved_package.repo_name
                   collection := resolved_package.collection.toDisplay
                   name := package.full_name '-'
                   bin_name := package.bin_name
                   version := package.version
                   checksum := checksum
                   size := parsedSize
                   timestamp := now }]

/-- `InstalledPackages::register_package` (src/registry/installed.rs
lines 87-113): apply the in-memory change, then `save`.  Result: the new
list and the filesystem trace. -/
def register_package (serialize : List InstalledPackage → List Nat)
    (root : String) (packages : List InstalledPackage)
    (resolved_package : ResolvedPackage) (checksum : String)
    (parsedSize now : Nat) : List InstalledPackage × List FsOp :=
  let packages := registerApply packages resolved_package checksum parsedSize now
  (packages, save serialize root packages)

/-- `InstalledPackages::unregister_package` from src/registry/installed.rs
lines 115-134: error when no matching record exists, else retain the
non-matching records and `save`. -/
def unregister_package (serialize : List InstalledPackage → List Nat)
    (root : String) (packages : List InstalledPackage)
    (resolved_package : ResolvedPackage) :
    Except String (List InstalledPackage × List FsOp) :=
  if is_installed packages resolved_package then
    let packages := packages.filter
      (fun installed => !trackerMatches installed resolved_package)
    Except.ok (packages, save serialize root packages)
  else
    Except.error "Package is not registered to install database."

/-- The candidate scan of `Updater::execute` from
src/registry/package/update.rs lines 57-75: for each resolved catalog
package, look its record up in the tracker by repository name, the
*slash*-joined full name (`full_name('/')`), and collection; a found record
is pushed onto `packages_to_update` exactly when its stored checksum
differs from the catalog `bsum`; a missing record is reported as
"Package … is not installed.".  Returns
(`packages_to_update`, packages reported as not installed). -/
def updateSelection (installed : List InstalledPackage)
    (packages : List ResolvedPackage) :
    List ResolvedPackage × List ResolvedPackage :=
  packages.foldl
    (fun (acc : List ResolvedPackage × List ResolvedPackage) package =>
      match installed.find? (fun i =>
          i.repo_name == package.repo_name
            && i.name == package.package.full_name '/'
            && i.collection == package.collection.toDisplay) with
      | some installed_package =>
          if installed_package.checksum != package.package.bsum then
            (acc.1 ++ [package], acc.2)
          else (acc.1, acc.2)
      | none => (acc.1, acc.2 ++ [package]))
    ([], [])

end Registry

/-- Rust's `str::split(sep)` at the character level: splits keeping empty
segments, so `"a/b"` gives `["a", "b"]` and `""` gives `[""]`. -/
def splitChars (sep : Char) : List Char → List (List Char)
  | [] => [[]]
  | c :: rest =>
      match splitChars sep rest with
      | [] => if c = sep then [[], []] else [[c]]
      | s :: ss => if c = sep then [] :: s :: ss else (c :: s) :: ss

/-- `url.split('/')` as a list of segment strings. -/
def splitSegments (url : String) : List String :=
  (splitChars '/' url.toList).map List.asString

/-- Rust's `str::to_lowercase` restricted to its ASCII behaviour, which is
all the package names of the metadata use. -/
def lowerAscii (s : String) : String :=
  (s.toList.map Char.toLower).asString

namespace Fetcher

/-! ## Metadata normalization (src/registry/fetcher.rs) -/

/-- The family derivation inside `MetadataFetcher::execute`
(src/registry/fetcher.rs lines 52-59): the second-to-last `/`-separated
segment of `download_url` (`split('/').rev().nth(1)`), dropped when it
equals the compile-time architecture string `ARCH`. -/
def deriveFamily (arch url : String) : Option String :=
  (((splitSegments url).reverse.get? 1).map id).filter (fun v => v != arch)

/-- The per-package rewrite the fold of `MetadataFetcher::execute` applies
before grouping: `Package { family: …, ..package.clone() }`
(src/registry/fetcher.rs lines 52-61).  (This iteration's fetcher feeds
the `src/package` data model.) -/
def withDerivedFamily (arch : String) (package : Pkg.Package) : Pkg.Package :=
  { package with family := deriveFamily arch package.download_url }

/-- `acc.entry(key).or_default().push(value)` on the grouping map,
embedded as an association list of buckets. -/
def groupInsert (acc : List (String × List Pkg.Package)) (key : String)
    (value : Pkg.Package) : List (String × List Pkg.Package) :=
  match acc with
  | [] => [(key, [value])]
  | (k, vs) :: rest =>
      if k = key then (k, vs ++ [value]) :: rest
      else (k, vs) :: groupInsert rest key value

/-- The collection-normalization fold of `MetadataFetcher::execute`
(src/registry/fetcher.rs lines 50-63): group the packages of one collection
by lowercased `pkg`, deriving each package's `family` from its own
`download_url`. -/
def normalizeCollection (arch : String) (packages : List Pkg.Package) :
    List (String × List Pkg.Package) :=
  packages.foldl
    (fun acc package =>
      groupInsert acc (lowerAscii package.pkg)
        (withDerivedFamily arch package))
    []

end Fetcher

namespace Install

/-! ## The resumable download step of `Installer::execute`
(src/registry/package/install.rs lines 86-167) -/

/-- An HTTP response, as the installer observes it: status code, body
bytes, and the `Content-Length` header. -/
structure Response where
  status : Nat
  body : List Nat
  content_length : Option Nat
deriving DecidableEq, Repr

/-- `reqwest::StatusCode::is_success`: the 2xx range. -/
def isSuccess (status : Nat) : Bool := 200 ≤ status && status < 300

/-- The `Range` header the installer sends
(src/registry/package/install.rs lines 88-97): `bytes=<L>-` where `L` is
the current length of the staging `.part` file (0 when absent). -/
def rangeHeader (stagingLen : Nat) : String :=
  "bytes=" ++ toString stagingLen ++ "-"

/-- The download step of `Installer::execute`
(src/registry/package/install.rs lines 143-167): a non-2xx response is an
error; otherwise the staging file is opened with `append(true)` and every
body chunk is appended, so the staging content afterwards is the old
staging content followed by the response body.  No branch inspects whether
the server honored the range (status 206 vs 200) and no branch truncates
the staging file. -/
def downloadToStaging (staging : List Nat) (response : Response) :
    Except String (List Nat) :=
  if !isSuccess response.status then
    Except.error "Download failed"
  else
    Except.ok (staging ++ response.body)

/-- A range-honoring server for a remote object `remote`: a satisfiable
`bytes=start-` request yields `206` with the suffix, an unsatisfiable one
`416 Range Not Satisfiable`; a range-ignoring server replies `200` with
the whole body. -/
def serverResponse (remote : List Nat) (honorsRange : Bool) (start : Nat) :
    Response :=
  if honorsRange then
    if start < remote.length then
      { status := 206, body := remote.drop start
        content_length := some (remote.length - start) }
    else
      { status := 416, body := [], content_length := some 0 }
  else
    { status := 200, body := remote, content_length := some remote.length }

end Install

/-! ## Cache cleanup (src/core/util.rs) and the run cache
(src/registry/package/run.rs) -/

/-- Linux extended attributes of a file: an association list with
case-sensitive keys.  `xattr::get` is lookup; absent keys give `none`. -/
def xattrGet (xattrs : List (String × String)) (key : String) : Option String :=
  (xattrs.find? (fun kv => kv.1 == key)).map (fun kv => kv.2)

/-- `xattr::set`: replace the binding of `key` or add it. -/
def xattrSet (xattrs : List (String × String)) (key value : String) :
    List (String × String) :=
  if (xattrs.find? (fun kv => kv.1 == key)).isSome then
    xattrs.map (fun kv => if kv.1 == key then (kv.1, value) else kv)
  else
    xattrs ++ [(key, value)]

/-- A file in the run cache directory: its path, extended attributes,
content, and the seconds elapsed since its modification time. -/
structure CacheEntry where
  path : String := ""
  xattrs : List (String × String) := []
  content : List Nat := []
  elapsed : Nat := 0
deriving DecidableEq, Repr

/-- The per-entry removal test of `cleanup` (src/core/util.rs
lines 238-259): an entry is deleted exactly when its
`user.managed_by` xattr equals `soar` and
`cache_ttl.saturating_sub(elapsed) == 0` for `cache_ttl = 28800`. -/
def cleanupRemoves (entry : CacheEntry) : Bool :=
  xattrGet entry.xattrs "user.managed_by" == some "soar"
    && 28800 - entry.elapsed == 0

/-- `cleanup` over the cache directory (src/core/util.rs lines 238-259):
entries whose tag does not match are skipped by `continue`, untouched;
matching entries old enough are removed with `fs::remove_file`.  The
result is the surviving directory listing. -/
def cleanup (entries : List CacheEntry) : List CacheEntry :=
  entries.filter (fun entry => !cleanupRemoves entry)

/-- The xattrs of the file `Runner::save_file`
(src/registry/package/run.rs lines 137-148) leaves at the cache path: the
staging file's attributes with `user.ManagedBy` set to `soar` — note the
key differs in case from the `user.managed_by` key `cleanup` inspects. -/
def runSaveXattrs (stagingXattrs : List (String × String)) :
    List (String × String) :=
  xattrSet stagingXattrs "user.ManagedBy" "soar"

/-! ## Portable directories (src/registry/package/appimage.rs) and the
install command guard (src/lib.rs) -/

/-- `setup_portable_dir` from src/registry/package/appimage.rs
lines 338-388, as the trace of filesystem mutations it performs.
`with_extension` on the extensionless artifact paths appends the new
extension; a non-empty option value `v` makes `<v>/<bin_name>.home` (resp.
`.config`) and symlinks the sibling to it, an empty value makes the
sibling directory itself.  When `portable` is present it replaces both
split options; nothing here rejects any combination. -/
def setup_portable_dir (bin_name package_path : String)
    (portable portable_home portable_config : Option String) : List FsOp :=
  let pkg_config := package_path ++ ".config"
  let pkg_home := package_path ++ ".home"
  let split :=
    match portable with
    | some p => (some p, some p)
    | none => (portable_home, portable_config)
  (match split.1 with
   | none => []
   | some h =>
       if h = "" then [FsOp.createDir pkg_home]
       else
         let dir := pathJoin h bin_name ++ ".home"
         [FsOp.createDirAll dir, FsOp.symlink dir pkg_home]) ++
  (match split.2 with
   | none => []
   | some c =>
       if c = "" then [FsOp.createDir pkg_config]
       else
         let dir := pathJoin c bin_name ++ ".config"
         [FsOp.createDirAll dir, FsOp.symlink dir pkg_config])

/-- The `Commands::Install` arm of `handle_cli` (src/lib.rs lines 80-109):
`--portable` given together with `--portable-home` or `--portable-config`
is rejected with an error (exit 1) before the registry install runs;
otherwise each `Option<Option<String>>` flag collapses with
`unwrap_or_default` and installation proceeds, eventually performing the
`setup_portable_dir` mutations for each AppImage package.  The value is
the trace of portable-directory mutations performed. -/
def installCommandPortable (bin_name package_path : String)
    (portable portable_home portable_config : Option (Option String)) :
    Except String (List FsOp) :=
  if portable.isSome && (portable_home.isSome || portable_config.isSome) then
    Except.error "--portable cannot be used with --portable-home or --portable-config"
  else
    Except.ok (setup_portable_dir bin_name package_path
      (portable.map (fun p => p.getD ""))
      (portable_home.map (fun p => p.getD ""))
      (portable_config.map (fun p => p.getD "")))

/-! ## Spec-side definitions used to compare the source against the
claims' wording -/

/-- Modelled from the spec: "The tracker file is rewritten atomically" by
"write to a staging location, then rename over the final path" — the trace
shape an atomic rewrite of `finalPath` would have. -/
def specAtomicRewrite (finalPath : String) (ops : List FsOp) : Prop :=
  ∃ staging data, staging ≠ finalPath
    ∧ ops = [FsOp.write staging data, FsOp.rename staging finalPath]

/-- Modelled from the spec: "A package's download_url's second-to-last
path segment, if not architecture/platform, is authoritative for family" —
the family rule as the claim states it, unsetting the family when the
segment equals the architecture string or the platform string. -/
def specClaimFamily (arch platform url : String) : Option String :=
  ((splitSegments url).reverse.get? 1).filter
    (fun v => v != arch && v != platform)

end Soar

namespace Soar

/-! # Theorems -/

/-- A read error at the end of the event sequence is indistinguishable
from end of file for the shared digest read loop. -/
theorem readLoop_append_ioError (events : List ReadEvent) :
    readLoop (events ++ [ReadEvent.ioError]) = readLoop events := by
  induction events with
  | nil => rfl
  | cons ev rest ih =>
      cases ev with
      | ioError => rfl
      | chunk d =>
          cases d with
          | nil => rfl
          | cons b bs => simp [readLoop, ih]

/-- C9: for every file that can be opened, the streaming BLAKE3 digest
helper returns `Ok`: a read error after a successful open is treated like
end of file, the function yields the digest of the bytes read so far, and
checksum validation cannot distinguish a read cut short by an I/O error
from a genuinely shorter file. -/
theorem calculate_checksum_swallows_read_errors (hash : List Nat → String)
    (events : List ReadEvent) (expected : String) :
    (calculate_checksum hash (some events)).isOk = true
    ∧ calculate_checksum hash (some events) = Except.ok (hash (readLoop events))
    ∧ calculate_checksum hash (some (events ++ [ReadEvent.ioError]))
        = calculate_checksum hash (some events)
    ∧ validate_checksum hash expected (some (events ++ [ReadEvent.ioError]))
        = validate_checksum hash expected (some events) := by
  refine ⟨rfl, rfl, ?_, ?_⟩
  · simp [calculate_checksum, readLoop_append_ioError]
  · simp [validate_checksum, calculate_checksum, readLoop_append_ioError]

/-- C3 counterexample: `validate_checksum` (src/core/util.rs), on a file
that opens and reads fine but whose recomputed digest differs from the
expected one, signals an error instead of returning a boolean false —
refuting "return false (not error) on mismatch; signal error only on I/O
failure; for every readable file this operation is non-failing". -/
theorem validate_checksum_errors_on_pure_mismatch :
    validate_checksum (fun _ => "aa") "bb" (some [])
      = Except.error "Checksum verification failed."
    ∧ (calculate_checksum (fun _ => "aa") (some [])).isOk = true := by
  exact ⟨rfl, rfl⟩

/-- C3 amended: the boolean-returning `verify_checksum`
(src/package/util.rs) meets the stated contract — `Ok(false)`, not an
error, exactly when the recomputed digest differs, hence non-failing for
every openable file — while `validate_checksum` (src/core/util.rs), used
by the install engine, signals a mismatch through an error value: it
returns `Ok(())` iff the digests agree. -/
theorem checksum_validation_contract (hash : List Nat → String)
    (events : List ReadEvent) (bsum expected : String) :
    verify_checksum hash (some events) bsum
      = Except.ok (hash (readLoop events) == bsum)
    ∧ (verify_checksum hash (some events) bsum = Except.ok false
        ↔ hash (readLoop events) ≠ bsum)
    ∧ (validate_checksum hash expected (some events) = Except.ok ()
        ↔ hash (readLoop events) = expected)
    ∧ (validate_checksum hash expected (some events)
          = Except.error "Checksum verification failed."
        ↔ hash (readLoop events) ≠ expected) := by
  refine ⟨rfl, ?_, ?_, ?_⟩
  · by_cases h : hash (readLoop events) = bsum <;>
      simp [verify_checksum, h]
  · by_cases h : hash (readLoop events) = expected <;>
      simp [validate_checksum, calculate_checksum, h]
  · by_cases h : hash (readLoop events) = expected <;>
      simp [validate_checksum, calculate_checksum, h]

/-- C6 counterexample: a 12-byte file whose first four bytes are not the
ELF magic but whose bytes 8..12 carry the AppImage signature is classified
as AppImage — refuting "a file whose first 4 bytes are not the ELF magic
is never classified as AppImage or FlatImage". -/
theorem appimage_classified_without_elf_prefix :
    get_file_type [0, 0, 0, 0, 0, 0, 0, 0, 0x41, 0x49, 0x02, 0x00]
      = FileType.AppImage
    ∧ ([0, 0, 0, 0, 0, 0, 0, 0, 0x41, 0x49, 0x02, 0x00] : List Nat).take 4
        ≠ ELF_MAGIC_BYTES := by decide

/-- C6 amended: for every file with at least 12 readable bytes, the
classifier returns AppImage iff bytes 8..12 are `41 49 02 00` regardless
of the first four bytes, FlatImage iff bytes 8..12 are `46 49 01 00` (and
not the AppImage signature), and plain ELF iff bytes 0..4 are
`7F 45 4C 46` while bytes 8..12 are neither signature; anything else,
including files shorter than 12 bytes, is Unknown. -/
theorem file_type_classification (bytes : List Nat)
    (h : 12 ≤ bytes.length) :
    (get_file_type bytes = FileType.AppImage
      ↔ (bytes.drop 8).take 4 = APPIMAGE_MAGIC_BYTES)
    ∧ (get_file_type bytes = FileType.FlatImage
      ↔ (bytes.drop 8).take 4 ≠ APPIMAGE_MAGIC_BYTES
          ∧ (bytes.drop 8).take 4 = FLATIMAGE_MAGIC_BYTES)
    ∧ (get_file_type bytes = FileType.ELF
      ↔ bytes.take 4 = ELF_MAGIC_BYTES
          ∧ (bytes.drop 8).take 4 ≠ APPIMAGE_MAGIC_BYTES
          ∧ (bytes.drop 8).take 4 ≠ FLATIMAGE_MAGIC_BYTES)
    ∧ (∀ shorter : List Nat, shorter.length < 12 →
        get_file_type shorter = FileType.Unknown) := by
  have hsig : (bytes.take 12).drop 8 = (bytes.drop 8).take 4 := by
    rw [List.drop_take]
  have hhead : (bytes.take 12).take 4 = bytes.take 4 := by
    rw [List.take_take]
    norm_num
  have hlen : ¬ bytes.length < 12 := by omega
  refine ⟨?_, ?_, ?_, ?_⟩
  · simp only [get_file_type]
    rw [if_neg hlen, hsig, hhead]
    split_ifs with h1 h2 h3 <;> simp_all
  · simp only [get_file_type]
    rw [if_neg hlen, hsig, hhead]
    split_ifs with h1 h2 h3 <;> simp_all
  · simp only [get_file_type]
    rw [if_neg hlen, hsig, hhead]
    split_ifs with h1 h2 h3 <;> simp_all
  · intro shorter hshort
    simp only [get_file_type]
    rw [if_pos hshort]

/-- C7 counterexample: the registry iteration's `get_install_dir`
(src/registry/package/mod.rs) prefixes the directory name with the whole
64-character checksum, not its first 8 characters — refuting "the checksum
prefix in the directory name is 8 characters for every installed
artifact". -/
theorem registry_install_dir_uses_full_checksum :
    Registry.Package.get_install_dir { name := "hello" } "/soar"
        "0123456789abcdef0123456789abcdef0123456789abcdef0123456789abcdef"
      = "/soar/packages/0123456789abcdef0123456789abcdef0123456789abcdef0123456789abcdef-hello"
    ∧ Registry.Package.get_install_dir { name := "hello" } "/soar"
        "0123456789abcdef0123456789abcdef0123456789abcdef0123456789abcdef"
      ≠ "/soar/packages/01234567-hello" := by
  constructor
  · rfl
  · decide

/-- C7 amended: the package-store iteration
(src/package/mod.rs) derives
`<root>/packages/<first-8-of-checksum>-<full_name('-')>` with the install
path below it, but the registry iteration
(src/registry/package/mod.rs) prefixes the directory with the full
checksum. -/
theorem install_dir_checksum_layout (root checksum : String)
    (p : Pkg.Package) (q : Registry.Package) (h : 8 ≤ checksum.length) :
    (∃ pre rest, checksum.toList = pre ++ rest ∧ pre.length = 8
      ∧ p.get_install_dir root checksum
          = root ++ "/packages/" ++ pre.asString ++ "-" ++ p.full_name '-'
      ∧ p.get_install_path root checksum
          = root ++ "/packages/" ++ pre.asString ++ "-" ++ p.full_name '-'
              ++ "/" ++ p.pkg_name)
    ∧ q.get_install_dir root checksum
        = root ++ "/packages/" ++ checksum ++ "-" ++ q.full_name '-'
    ∧ q.get_install_path root checksum
        = root ++ "/packages/" ++ checksum ++ "-" ++ q.full_name '-'
            ++ "/" ++ q.bin_name := by
  refine ⟨⟨checksum.toList.take 8, checksum.toList.drop 8,
      (checksum.toList.take_append_drop 8).symm, ?_, ?_, ?_⟩, ?_, ?_⟩
  · rw [List.length_take]
    have : checksum.toList.length = checksum.length := rfl
    omega
  · simp [Pkg.Package.get_install_dir, pathJoin, PACKAGES_PATH,
      String.append_assoc]
  · simp [Pkg.Package.get_install_path, Pkg.Package.get_install_dir,
      pathJoin, PACKAGES_PATH, String.append_assoc]
  · simp [Registry.Package.get_install_dir, pathJoin, PACKAGES_PATH,
      String.append_assoc]
  · simp [Registry.Package.get_install_path, Registry.Package.get_install_dir,
      pathJoin, PACKAGES_PATH, String.append_assoc]

/-- C7 witness: the layout evaluated on a concrete package and digest. -/
theorem install_dir_checksum_layout_witness :
    8 ≤ ("aabbccdd11223344" : String).length
    ∧ Registry.Package.get_install_dir { name := "hello" } "/soar"
        "aabbccdd11223344"
      = "/soar" ++ "/packages/" ++ "aabbccdd11223344" ++ "-"
          ++ Registry.Package.full_name { name := "hello" } '-' :=
  ⟨by decide,
   (install_dir_checksum_layout "/soar" "aabbccdd11223344" {}
      { name := "hello" } (by decide)).2.1⟩

/-- Membership in a bucket after `groupInsert`: either the element was
already in a bucket with the same key, or it is the inserted value. -/
theorem groupInsert_mem {acc : List (String × List Pkg.Package)}
    {key : String} {v : Pkg.Package} {k : String} {g : List Pkg.Package}
    (hkg : (k, g) ∈ Fetcher.groupInsert acc key v) {x : Pkg.Package}
    (hx : x ∈ g) :
    (∃ g0, (k, g0) ∈ acc ∧ x ∈ g0) ∨ x = v := by
  induction acc with
  | nil =>
      simp only [Fetcher.groupInsert, List.mem_singleton,
        Prod.mk.injEq] at hkg
      rcases hkg with ⟨-, rfl⟩
      rcases List.mem_singleton.mp hx with rfl
      exact Or.inr rfl
  | cons head rest ih =>
      rcases head with ⟨k0, g0⟩
      by_cases hEq : k0 = key
      · simp only [Fetcher.groupInsert, if_pos hEq] at hkg
        rcases List.mem_cons.mp hkg with hkg | hkg
        · rcases Prod.mk.injEq .. ▸ hkg with ⟨rfl, rfl⟩
          rcases List.mem_append.mp hx with hx | hx
          · exact Or.inl ⟨g0, List.mem_cons_self _ _, hx⟩
          · exact Or.inr (List.mem_singleton.mp hx)
        · exact Or.inl ⟨g, List.mem_cons_of_mem _ hkg, hx⟩
      · simp only [Fetcher.groupInsert, if_neg hEq] at hkg
        rcases List.mem_cons.mp hkg with hkg | hkg
        · rcases Prod.mk.injEq .. ▸ hkg with ⟨rfl, rfl⟩
          exact Or.inl ⟨g, List.mem_cons_self _ _, hx⟩
        · rcases ih hkg with ⟨g1, hg1, hxg1⟩ | hv
          · exact Or.inl ⟨g1, List.mem_cons_of_mem _ hg1, hxg1⟩
          · exact Or.inr hv

/-- Every package reachable in the normalization fold either was in the
starting accumulator or is the family-rewrite of a catalog package. -/
theorem normalizeFold_mem (arch : String) (packages : List Pkg.Package)
    (acc : List (String × List Pkg.Package)) (k : String)
    (g : List Pkg.Package) (x : Pkg.Package)
    (hkg : (k, g) ∈ packages.foldl
        (fun acc package =>
          Fetcher.groupInsert acc (lowerAscii package.pkg)
            (Fetcher.withDerivedFamily arch package)) acc)
    (hx : x ∈ g) :
    (∃ g0, (k, g0) ∈ acc ∧ x ∈ g0)
      ∨ ∃ p, p ∈ packages ∧ x = Fetcher.withDerivedFamily arch p := by
  induction packages generalizing acc with
  | nil => exact Or.inl ⟨g, hkg, hx⟩
  | cons p rest ih =>
      rcases ih (Fetcher.groupInsert acc (lowerAscii p.pkg)
          (Fetcher.withDerivedFamily arch p)) hkg with h | h
      · rcases h with ⟨g0, hg0, hxg0⟩
        rcases groupInsert_mem hg0 hxg0 with h' | h'
        · exact Or.inl h'
        · exact Or.inr ⟨p, List.mem_cons_self _ _, h'⟩
      · rcases h with ⟨q, hq, hxq⟩
        exact Or.inr ⟨q, List.mem_cons_of_mem _ hq, hxq⟩

/-- C5 counterexample: the fetcher drops the second-to-last URL segment as
family only when it equals the architecture string; a segment equal to the
platform string (here `linux`, with architecture `x86_64`) is kept —
refuting "when that segment equals the architecture string or the platform
string the family is left unset". -/
theorem family_keeps_platform_segment :
    Fetcher.deriveFamily "x86_64" "https://ex/linux/curl" = some "linux"
    ∧ specClaimFamily "x86_64" "linux" "https://ex/linux/curl" = none
    ∧ Fetcher.deriveFamily "x86_64" "https://ex/linux/curl"
        ≠ specClaimFamily "x86_64" "linux" "https://ex/linux/curl" := by
  decide

/-- C5 amended: for every package in the normalized catalog, the derived
family equals the second-to-last path segment of its own `download_url`,
except that a segment equal to the architecture string leaves the family
unset (a segment equal to the platform string is kept); the family is thus
a function of the `download_url` alone and does not depend on the order of
catalog entries. -/
theorem normalized_family_from_url (arch : String)
    (packages : List Pkg.Package) (key : String)
    (group : List Pkg.Package) (q : Pkg.Package)
    (hk : (key, group) ∈ Fetcher.normalizeCollection arch packages)
    (hq : q ∈ group) :
    q.family = Fetcher.deriveFamily arch q.download_url
    ∧ ∃ p, p ∈ packages ∧ q = Fetcher.withDerivedFamily arch p := by
  rcases normalizeFold_mem arch packages [] key group q hk hq with
    ⟨g0, hg0, -⟩ | ⟨p, hp, rfl⟩
  · simp at hg0
  · exact ⟨rfl, ⟨p, hp, rfl⟩⟩

/-- C5 witness: a `glibc` segment survives normalization as the family of
the emitted package. -/
theorem normalized_family_from_url_witness :
    (("curl",
        [({ pkg := "Curl", download_url := "https://ex/glibc/curl",
            family := some "glibc" } : Pkg.Package)])
      ∈ Fetcher.normalizeCollection "x86_64"
          [{ pkg := "Curl", download_url := "https://ex/glibc/curl" }])
    ∧ ({ pkg := "Curl", download_url := "https://ex/glibc/curl",
         family := some "glibc" } : Pkg.Package).family
        = Fetcher.deriveFamily "x86_64" "https://ex/glibc/curl" :=
  ⟨by decide,
   (normalized_family_from_url "x86_64"
      [{ pkg := "Curl", download_url := "https://ex/glibc/curl" }] "curl"
      [({ pkg := "Curl", download_url := "https://ex/glibc/curl",
          family := some "glibc" } : Pkg.Package)]
      { pkg := "Curl", download_url := "https://ex/glibc/curl",
        family := some "glibc" }
      (by decide) (by decide)).1⟩

/-- C6 witness: the amended classification evaluated on a genuine
AppImage header. -/
theorem file_type_classification_witness :
    12 ≤ ([0x7f, 0x45, 0x4c, 0x46, 2, 1, 1, 0, 0x41, 0x49, 0x02, 0x00] :
        List Nat).length
    ∧ get_file_type
        [0x7f, 0x45, 0x4c, 0x46, 2, 1, 1, 0, 0x41, 0x49, 0x02, 0x00]
      = FileType.AppImage :=
  ⟨by decide,
   (file_type_classification
      [0x7f, 0x45, 0x4c, 0x46, 2, 1, 1, 0, 0x41, 0x49, 0x02, 0x00]
      (by decide)).1.mpr (by decide)⟩

/-- C4 code-bug demonstration: a family (`variant`) package registered by
`register_package` is stored in the tracker under `full_name('-')`
(`glibc-curl`), but the scan of `Updater::execute` looks it up under
`full_name('/')` (`glibc/curl`); so although the package is installed
(`is_installed` agrees) and its tracked checksum differs from the catalog
`bsum`, the update pass selects nothing and reports the package as not
installed. -/
theorem update_misses_family_packages :
    Registry.is_installed
      (Registry.registerApply []
        { repo_name := "repo", collection := Registry.Collection.Bin
          package := { name := "curl", bin_name := "curl", version := "2",
                       bsum := "newsum", variant := some "glibc" } }
        "oldsum" 42 100)
      { repo_name := "repo", collection := Registry.Collection.Bin
        package := { name := "curl", bin_name := "curl", version := "2",
                     bsum := "newsum", variant := some "glibc" } } = true
    ∧ "oldsum" ≠ "newsum"
    ∧ Registry.updateSelection
        (Registry.registerApply []
          { repo_name := "repo", collection := Registry.Collection.Bin
            package := { name := "curl", bin_name := "curl", version := "2",
                         bsum := "newsum", variant := some "glibc" } }
          "oldsum" 42 100)
        [({ repo_name := "repo", collection := Registry.Collection.Bin
            package := { name := "curl", bin_name := "curl", version := "2",
                         bsum := "newsum", variant := some "glibc" } } :
          Registry.ResolvedPackage)]
      = ([],
         [({ repo_name := "repo", collection := Registry.Collection.Bin
             package := { name := "curl", bin_name := "curl", version := "2",
                          bsum := "newsum", variant := some "glibc" } } :
           Registry.ResolvedPackage)]) := by
  refine ⟨by decide, by decide, by decide⟩

/-- C2 counterexample: the trace of filesystem mutations that registering
a package performs is a single direct `fs::write` of `<installs>/latest`,
not the claimed write-to-staging-then-rename promotion. -/
theorem register_save_is_not_atomic :
    (Registry.register_package (fun _ => [0, 1]) "/soar" []
        { repo_name := "repo", collection := Registry.Collection.Bin
          package := { name := "hello", bin_name := "hello" } }
        "c" 0 0).2
      = [FsOp.write (pathJoin (INSTALL_TRACK_PATH "/soar") "latest") [0, 1]]
    ∧ ¬ specAtomicRewrite (pathJoin (INSTALL_TRACK_PATH "/soar") "latest")
        (Registry.register_package (fun _ => [0, 1]) "/soar" []
          { repo_name := "repo", collection := Registry.Collection.Bin
            package := { name := "hello", bin_name := "hello" } }
          "c" 0 0).2 := by
  refine ⟨rfl, ?_⟩
  rintro ⟨staging, data, -, h⟩
  have hlen := congrArg List.length h
  simp [Registry.register_package, Registry.save] at hlen

/-- C2 amended: every tracker mutation (register and unregister) rewrites
`<installs>/latest` with one direct `fs::write` of the full serialization,
with no staging file and no rename; consequently a crash in the middle of
the write can leave the file holding any prefix of the new serialization
(or the old content), so a partial write is observable. -/
theorem tracker_mutations_single_direct_write
    (serialize : List Registry.InstalledPackage → List Nat) (root : String)
    (packages : List Registry.InstalledPackage)
    (rp : Registry.ResolvedPackage) (checksum : String)
    (parsedSize now : Nat) (old pre : List Nat)
    (hpre : pre <+:
      serialize (Registry.registerApply packages rp checksum parsedSize now)) :
    (Registry.register_package serialize root packages rp checksum
        parsedSize now).2
      = [FsOp.write (pathJoin (INSTALL_TRACK_PATH root) "latest")
          (serialize (Registry.registerApply packages rp checksum
            parsedSize now))]
    ∧ (∀ newPackages ops,
        Registry.unregister_package serialize root packages rp
            = Except.ok (newPackages, ops) →
        ops = [FsOp.write (pathJoin (INSTALL_TRACK_PATH root) "latest")
          (serialize newPackages)])
    ∧ pre ∈ crashContents (pathJoin (INSTALL_TRACK_PATH root) "latest") old
        (FsOp.write (pathJoin (INSTALL_TRACK_PATH root) "latest")
          (serialize (Registry.registerApply packages rp checksum
            parsedSize now))) := by
  refine ⟨rfl, ?_, ?_⟩
  · intro newPackages ops hok
    unfold Registry.unregister_package at hok
    by_cases hinst : Registry.is_installed packages rp
    · rw [if_pos hinst] at hok
      have h := Except.ok.inj hok
      have h1 := congrArg Prod.fst h
      have h2 := congrArg Prod.snd h
      simp only at h1 h2
      rw [← h2, ← h1]
      rfl
    · rw [if_neg hinst] at hok
      exact absurd hok (by simp)
  · simp only [crashContents]
    rw [if_pos trivial]
    exact List.mem_cons.mpr (Or.inr ((List.mem_inits _ _).mpr hpre))

/-- C2 witness: the single-write shape and a crash prefix on a concrete
registration. -/
theorem tracker_mutations_single_direct_write_witness :
    (([] : List Nat) <+: [7])
    ∧ (Registry.register_package (fun _ => [7]) "/soar" []
        { repo_name := "repo", collection := Registry.Collection.Bin
          package := { name := "hello", bin_name := "hello" } }
        "c" 0 0).2
      = [FsOp.write (pathJoin (INSTALL_TRACK_PATH "/soar") "latest") [7]] :=
  ⟨ List.nil_prefix,
   (tracker_mutations_single_direct_write (fun _ => [7]) "/soar" []
      { repo_name := "repo", collection := Registry.Collection.Bin
        package := { name := "hello", bin_name := "hello" } }
      "c" 0 0 [] [] List.nil_prefix).1⟩

/-- C1 code-bug demonstration: with a 1-byte staging file the installer
sends `Range: bytes=1-`, but when the server ignores the range and replies
`200` with the full body `[1, 2, 3]`, the append-mode write leaves the
staging file as the old prefix concatenated with the full body
`[1, 1, 2, 3]` instead of restarting from zero; and when the staging file
is already longer than the remote object, a range-honoring server's `416`
is surfaced as a plain error with no truncation, so no restart happens
either. -/
theorem installer_appends_full_body_on_ignored_range :
    Install.rangeHeader ([1] : List Nat).length = "bytes=1-"
    ∧ Install.downloadToStaging [1] (Install.serverResponse [1, 2, 3] false 1)
        = Except.ok [1, 1, 2, 3]
    ∧ Install.downloadToStaging [1] (Install.serverResponse [1, 2, 3] false 1)
        ≠ Except.ok [1, 2, 3]
    ∧ Install.downloadToStaging [1, 2, 3, 4]
        (Install.serverResponse [1, 2] true 4)
        = Except.error "Download failed" := by
  refine ⟨rfl, rfl, ?_, rfl⟩
  intro h
  exact absurd (Except.ok.inj h) (by decide)

/-- C8: supplying `--portable` together with `--portable-home` or
`--portable-config` makes the install command fail with an error before
any install step runs, so no portable home or config directory is created
and no symlink is made. -/
theorem portable_conflict_rejected (bin_name package_path : String)
    (portable portable_home portable_config : Option (Option String))
    (hp : portable.isSome = true)
    (hsplit : portable_home.isSome = true ∨ portable_config.isSome = true) :
    installCommandPortable bin_name package_path portable portable_home
        portable_config
      = Except.error
          "--portable cannot be used with --portable-home or --portable-config" := by
  unfold installCommandPortable
  rw [if_pos]
  rw [hp, Bool.true_and, Bool.or_eq_true]
  rcases hsplit with h | h
  · exact Or.inl h
  · exact Or.inr h

/-- C8 witness: the rejection at a concrete flag combination. -/
theorem portable_conflict_rejected_witness :
    ((some none : Option (Option String)).isSome = true
      ∧ (some (some "/data") : Option (Option String)).isSome = true)
    ∧ installCommandPortable "curl" "/soar/packages/x-curl/curl"
        (some none) (some (some "/data")) none
      = Except.error
          "--portable cannot be used with --portable-home or --portable-config" :=
  ⟨⟨rfl, rfl⟩,
   portable_conflict_rejected "curl" "/soar/packages/x-curl/curl"
     (some none) (some (some "/data")) none rfl (Or.inl rfl)⟩

/-- C10: cache cleanup removes only entries whose `user.managed_by` xattr
equals `soar`; the run cache tags its files with the differently-cased key
`user.ManagedBy`, so an entry cached by `Runner::save_file` from a fresh
staging file survives cleanup verbatim however old it is, and cleanup
never modifies surviving entries (the result is a sublist of the input). -/
theorem cleanup_spares_run_cache (entries : List CacheEntry)
    (e : CacheEntry) (he : e ∈ entries)
    (hx : e.xattrs = runSaveXattrs []) :
    List.Sublist (cleanup entries) entries
    ∧ e ∈ cleanup entries
    ∧ cleanupRemoves e = false := by
  have hrem : cleanupRemoves e = false := by
    have hget : xattrGet e.xattrs "user.managed_by" = none := by
      rw [hx]; rfl
    simp [cleanupRemoves, hget]
  exact ⟨List.filter_sublist _,
    List.mem_filter.mpr ⟨he, by rw [hrem]; rfl⟩, hrem⟩

/-- C10 witness: a concrete run-cached entry, 100 days old, survives. -/
theorem cleanup_spares_run_cache_witness :
    ({ path := "/cache/curl", xattrs := runSaveXattrs [],
       elapsed := 8640000 } : CacheEntry)
      ∈ [({ path := "/cache/curl", xattrs := runSaveXattrs [],
            elapsed := 8640000 } : CacheEntry)]
    ∧ ({ path := "/cache/curl", xattrs := runSaveXattrs [],
         elapsed := 8640000 } : CacheEntry)
        ∈ cleanup
            [({ path := "/cache/curl", xattrs := runSaveXattrs [],
                elapsed := 8640000 } : CacheEntry)] :=
  ⟨List.mem_singleton.mpr rfl,
   (cleanup_spares_run_cache
      [({ path := "/cache/curl", xattrs := runSaveXattrs [],
          elapsed := 8640000 } : CacheEntry)]
      { path := "/cache/curl", xattrs := runSaveXattrs [],
        elapsed := 8640000 }
      (List.mem_singleton.mpr rfl) rfl).2.1⟩

end Soar
